import Mathlib

/-!
# pkg/issuer/acme/dns/execute

A shallow embedding of `execute.go`: the DNS-01 provider that delegates record
handling to an external plugin binary.

Conventions of the embedding.

* A Go `string` is a Lean `String` (valid UTF-8 text).
* A Go `[]string` is a `Slice String`: either `nil` or a backing sequence, so
  that `len(s) == 0` and `s == nil` stay distinct, as `exec.Cmd.Env` needs.
* A Go `error` result is an `Option GoError` (`none` is the nil error); a
  `*DNSProvider` result is an `Option DNSProvider` (`none` is the nil pointer).
* The operating system is a `World`: the environment of the calling process
  and the outcome of every request to start a program. `Cmd.Run` is the only
  operation that asks the world to start one, and it reports each request it
  made; the effects of a call (glog lines, requests made by `Cmd.Run`) are
  returned next to its results as an `Effects` record.
* `os/exec` is modelled as documented for current Go on Unix: `Env` nil
  inherits the environment of the caller, and the environment is deduplicated
  before the child is started.
* `util.DNS01Record` lives in another package; every operation that calls it
  takes it as the parameter `dns`.
-/

namespace Execute

/-! ## Go values -/

/-- Go slice: the nil slice, or a slice over the given elements. -/
inductive Slice (α : Type) where
  | nil : Slice α
  | mk (elems : List α) : Slice α
  deriving DecidableEq, Repr

namespace Slice

/-- The elements of a slice in order; the nil slice has none. -/
def elems {α : Type} : Slice α → List α
  | nil => []
  | mk l => l

/-- Go `len(s)`. -/
def len {α : Type} (s : Slice α) : Nat := s.elems.length

/-- Go `s == nil`. -/
def isNil {α : Type} : Slice α → Bool
  | nil => true
  | mk _ => false

/-- Go `append(s, x)`: the result is never nil. -/
def push {α : Type} (s : Slice α) (x : α) : Slice α := mk (s.elems ++ [x])

end Slice

/-- Go error values that this package creates or receives from `os/exec`. -/
inductive GoError where
  /-- An error made by `fmt.Errorf` or `errors.New`, carrying its text. -/
  | errorString (msg : String)
  /-- The command could not be started (missing or non-executable binary). -/
  | startError (msg : String)
  /-- An `*exec.ExitError`: the command ran and exited with a non-zero status. -/
  | exitError (code : Nat)
  /-- An `*exec.ExitError`: the command ran and was ended by a signal. -/
  | signalError (signal : String)
  deriving DecidableEq, Repr

/-- Go `err.Error()`. -/
def GoError.Error : GoError → String
  | errorString msg => msg
  | startError msg => msg
  | exitError code => "exit status " ++ toString code
  | signalError signal => "signal: " ++ signal

/-- Go `fmt.Errorf(format)` for a format without verbs. -/
def fmtErrorf (format : String) : GoError := GoError.errorString format

/-- Go `time.Duration`: a count of nanoseconds. -/
abbrev Duration := Int

/-- Go `time.Nanosecond`. -/
def Nanosecond : Duration := 1
/-- Go `time.Microsecond`. -/
def Microsecond : Duration := 1000 * Nanosecond
/-- Go `time.Millisecond`. -/
def Millisecond : Duration := 1000 * Microsecond
/-- Go `time.Second`. -/
def Second : Duration := 1000 * Millisecond

/-! ## `strings` and `fmt` -/

/-- Go `unicode.IsSpace`: the Latin-1 cases, then the White_Space table. -/
def IsSpace (r : Char) : Bool :=
  let n := r.toNat
  if n ≤ 0xFF then
    n == 0x09 || n == 0x0A || n == 0x0B || n == 0x0C || n == 0x0D || n == 0x20
      || n == 0x85 || n == 0xA0
  else
    n == 0x1680 || (0x2000 ≤ n && n ≤ 0x200A) || n == 0x2028 || n == 0x2029
      || n == 0x202F || n == 0x205F || n == 0x3000

/-- Go `strings.TrimSpace`: drop leading, then trailing, white space. -/
def TrimSpace (s : String) : String :=
  String.mk (List.rdropWhile IsSpace (List.dropWhile IsSpace s.data))

/-- The pieces of a character sequence between occurrences of `sep`. -/
def splitChars (sep : Char) : List Char → List (List Char)
  | [] => [[]]
  | c :: cs =>
    if c = sep then [] :: splitChars sep cs
    else
      match splitChars sep cs with
      | [] => [[c]]
      | p :: ps => (c :: p) :: ps

/-- Go `strings.Split(s, sep)` for a separator of one ASCII character. -/
def Split (s : String) (sep : Char) : Slice String :=
  Slice.mk ((splitChars sep s.data).map String.mk)

/-- Go `%v` of a `[]string`: the elements between brackets, a blank apart. -/
def fmtStrings (s : Slice String) : String :=
  "[" ++ " ".intercalate s.elems ++ "]"

/-- Go `%v` of a `uint`. -/
def fmtUint (n : Nat) : String := toString n

/-! ## The operating system -/

/-- What happens when the operating system is asked to run a program. -/
inductive ProcOutcome where
  /-- The program could not be started; this includes a request the system
  refuses, such as one with a NUL byte in a string. -/
  | startFailed (msg : String)
  /-- The program ran, wrote these streams and exited with this status. -/
  | exited (code : Nat) (stdout stderr : String)
  /-- The program ran, wrote these streams and was ended by this signal. -/
  | signaled (signal : String) (stdout stderr : String)
  deriving DecidableEq, Repr

/-- Whether the program was started and exited with status zero. -/
def ProcOutcome.succeeded : ProcOutcome → Bool
  | startFailed _ => false
  | exited code _ _ => code == 0
  | signaled _ _ _ => false

/-- Standard output the program produced; none if it never started. -/
def ProcOutcome.stdout : ProcOutcome → String
  | startFailed _ => ""
  | exited _ out _ => out
  | signaled _ out _ => out

/-- Standard error the program produced; none if it never started. -/
def ProcOutcome.stderr : ProcOutcome → String
  | startFailed _ => ""
  | exited _ _ err => err
  | signaled _ _ err => err

/-- The error `cmd.Run()` reports for an outcome: nil when the program ran
and exited with status zero. -/
def ProcOutcome.status : ProcOutcome → Option GoError
  | startFailed msg => some (GoError.startError msg)
  | exited 0 _ _ => none
  | exited (n + 1) _ _ => some (GoError.exitError (n + 1))
  | signaled signal _ _ => some (GoError.signalError signal)

/-- The surroundings of the calling process. -/
structure World where
  /-- The environment of the calling process, first binding of a key first. -/
  environ : List (String × String)
  /-- The outcome of starting `path` with the given argv and environment. -/
  spawn : String → List String → List String → ProcOutcome

/-- Go `os.Getenv`: the value bound to `key`, the empty string if unset. -/
def World.Getenv (w : World) (key : String) : String :=
  (w.environ.lookup key).getD ""

/-- Go `os.Environ`: the environment as `KEY=VALUE` strings. -/
def World.Environ (w : World) : List String :=
  w.environ.map (fun kv => kv.1 ++ "=" ++ kv.2)

/-- A request to the operating system to start a program. -/
structure Process where
  path : String
  argv : List String
  env : List String
  deriving DecidableEq, Repr

/-- The fields of `exec.Cmd` this package sets. `Stdout` and `Stderr` are
buffers owned by the caller; `Run` returns what was written to them. -/
structure Cmd where
  Path : String
  Args : Slice String
  Env : Slice String
  deriving DecidableEq, Repr

/-- Argv of the new process: `Args`, or `[Path]` when `Args` is empty. -/
def Cmd.argv (cmd : Cmd) : List String :=
  if cmd.Args.len = 0 then [cmd.Path] else cmd.Args.elems

/-- The key under which `os/exec` deduplicates an environment entry: the text
before the first `=`, where a leading `=` counts as part of the key; `none`
for an entry without `=`. An entry that is `=` followed by text without `=`
has the empty key. -/
def envKey (kv : String) : Option String :=
  match kv.data with
  | [] => none
  | c :: rest =>
    if c = '=' then
      if rest.contains '=' then some (String.mk (c :: rest.takeWhile (fun ch => ch != '=')))
      else some ""
    else if rest.contains '=' then
      some (String.mk (c :: rest.takeWhile (fun ch => ch != '=')))
    else none

/-- The loop of `dedupEnvCase` of `os/exec`, over the entries from last to
first: an entry without `=` is kept unless empty, an entry with a key is kept
unless its key was seen. The result is in loop order. -/
def dedupLoop : List String → List String → List String
  | [], _ => []
  | kv :: rest, saw =>
    match envKey kv with
    | none => if kv = "" then dedupLoop rest saw else kv :: dedupLoop rest saw
    | some k => if saw.contains k then dedupLoop rest saw else kv :: dedupLoop rest (k :: saw)

/-- The function `dedupEnv` of `os/exec` on Unix: run the loop over the
entries from last to first and restore the order. -/
def dedupEnv (env : List String) : List String :=
  (dedupLoop env.reverse []).reverse

/-- Go `c.envv()`: the `Env` field, or the environment of the calling process
when the field is nil. -/
def Cmd.envv (cmd : Cmd) (parent : List String) : List String :=
  match cmd.Env with
  | Slice.nil => parent
  | Slice.mk l => l

/-- Environment the child of a command with this `Env` field is started with:
the field, or the environment of the calling process when the field is nil,
deduplicated. -/
def effectiveEnv (env : Slice String) (parent : List String) : List String :=
  dedupEnv (match env with
    | Slice.nil => parent
    | Slice.mk l => l)

/-- The request `cmd.Run()` makes to the operating system. -/
def Cmd.process (cmd : Cmd) (w : World) : Process :=
  { path := cmd.Path, argv := cmd.argv, env := dedupEnv (cmd.envv w.Environ) }

/-- The outcome of a request in a world. -/
def World.start (w : World) (p : Process) : ProcOutcome :=
  w.spawn p.path p.argv p.env

/-- Go `cmd.Run()`: the error, the contents of the `Stdout` and `Stderr`
buffers after the call, and the requests made to the operating system. The
error is nil when the command ran and exited with status zero. -/
def Cmd.Run (w : World) (cmd : Cmd) : (Option GoError × String × String) × List Process :=
  let p := cmd.process w
  let o := w.start p
  ((o.status, o.stdout, o.stderr), [p])

/-- Effects of a call, in order: lines given to glog, and the requests to
start a program that `Cmd.Run` made to the operating system. -/
structure Effects where
  log : List String
  runs : List Process
  deriving DecidableEq, Repr

/-! ## The package -/

/-- Package variable `workingDirectory`; nothing in the package assigns it. -/
def workingDirectory : String := "/srv/execute_plugin_dir/"

/-- The provider: plugin name, resolved binary and plugin environment. -/
structure DNSProvider where
  pluginName : String
  binaryPath : String
  env : Slice String
  deriving DecidableEq, Repr

/-- The record naming function `util.DNS01Record(domain, keyAuth)`, giving
`(fqdn, value, ttl)`. -/
abbrev RecordNaming := String → String → String × String × Int

/-- Source `envStrToSlice`: append the trimmed pieces of `str` to a nil slice. -/
def envStrToSlice (str : String) : Slice String :=
  (Split str ',').elems.foldl (fun envSlice v => envSlice.push (TrimSpace v)) Slice.nil

/-- Source `NewDNSProviderCredentials`. -/
def NewDNSProviderCredentials (pluginName : String) (env : Slice String) :
    Option DNSProvider × Option GoError :=
  if pluginName = "" ∨ env.len = 0 then
    (none, some (fmtErrorf "execute parameters missing"))
  else
    (some { pluginName := pluginName
            binaryPath := workingDirectory ++ pluginName
            env := env }, none)

/-- Source `NewDNSProvider`. -/
def NewDNSProvider (w : World) : Option DNSProvider × Option GoError :=
  let pluginName := w.Getenv "EXECUTE_PLUGIN_NAME"
  let env := envStrToSlice (w.Getenv "EXECUTE_ENV")
  NewDNSProviderCredentials pluginName env

/-- Source `(*DNSProvider).Timeout`, with the receiver passed through. -/
def DNSProvider.Timeout (c : DNSProvider) : DNSProvider × Duration × Duration :=
  (c, 120 * Second, 2 * Second)

/-- Source `execute`: results `(status, stdout, stderr)` and the effects. -/
def execute (w : World) (binaryPath : String) (args env : Slice String) :
    (Option GoError × String × String) × Effects :=
  let exitCode : Nat := 0
  let cmd : Cmd :=
    { Path := binaryPath
      Args := Slice.mk ([binaryPath] ++ args.elems)
      Env := env }
  let line1 := "executing program " ++ cmd.Path ++ " with the following arguments: "
    ++ fmtStrings cmd.Args ++ ". Environment: " ++ fmtStrings cmd.Env
  let r := cmd.Run w
  let status := r.1.1
  let stdout := r.1.2.1
  let stderr := r.1.2.2
  let line2 := "process finished with exit code: " ++ fmtUint exitCode
    ++ ", stdout: " ++ stdout ++ ", stderr: " ++ stderr
  ((status, stdout, stderr), { log := [line1, line2], runs := r.2 })

/-- Source `(*DNSProvider).Present`. -/
def DNSProvider.Present (dns : RecordNaming) (w : World) (c : DNSProvider)
    (domain _token keyAuth : String) : Option GoError × Effects :=
  let r := dns domain keyAuth
  let fqdn := r.1
  let value := r.2.1
  let args := Slice.mk ["present", fqdn, value]
  let res := execute w c.binaryPath args c.env
  (res.1.1, res.2)

/-- Source `(*DNSProvider).CleanUp`. -/
def DNSProvider.CleanUp (dns : RecordNaming) (w : World) (c : DNSProvider)
    (domain _token keyAuth : String) : Option GoError × Effects :=
  let r := dns domain keyAuth
  let fqdn := r.1
  let args := Slice.mk ["cleanup", fqdn, ""]
  let res := execute w c.binaryPath args c.env
  (res.1.1, res.2)

/-! ## Deduplication, stated directly -/

/-- Whether an entry outlives deduplication, given the keys already seen and
the entries after it: an entry without `=` does unless it is empty, an entry
with a key does unless the key was seen or a later entry has the same key. -/
def keptUnseen (saw : List String) (kv : String) (later : List String) : Bool :=
  match envKey kv with
  | none => kv != ""
  | some k => !saw.contains k && !later.any (fun x => envKey x == some k)

/-- The entries that outlive deduplication, given the keys already seen. -/
def keepLastUnseen (saw : List String) : List String → List String
  | [] => []
  | kv :: later =>
    if keptUnseen saw kv later then kv :: keepLastUnseen saw later
    else keepLastUnseen saw later

/-- The environment with, for every key, only the last entry of that key, and
without empty entries; the order of the entries that stay is unchanged. -/
def keepLast (env : List String) : List String := keepLastUnseen [] env

/-- An environment that deduplication leaves as it is: no entry is empty and
no two entries with a key have the same key. -/
def distinctKeys (env : List String) : Prop :=
  (∀ kv ∈ env, kv ≠ "")
    ∧ env.Pairwise (fun a b => envKey a = none ∨ envKey a ≠ envKey b)

/-! ## Sample inputs -/

/-- A record naming function in the manner of `util.DNS01Record`, for
instantiating statements at concrete inputs. -/
def sampleNaming : RecordNaming :=
  fun domain keyAuth => ("_acme-challenge." ++ domain ++ ".", keyAuth, 60)

/-- A plugin in the manner of the script of `execute_test.go`: it echoes its
arguments and environment for `present` and `cleanup`, and exits with status 1
on any other first argument. -/
def scriptSpawn (_path : String) (argv env : List String) : ProcOutcome :=
  match argv with
  | _ :: first :: rest =>
    if first = "present" ∨ first = "cleanup" then
      ProcOutcome.exited 0 (" ".intercalate (first :: rest) ++ "\n")
        ("\n".intercalate env ++ "\n")
    else
      ProcOutcome.exited 1 ("argument " ++ first ++ " is not recognized\n") ""
  | _ => ProcOutcome.exited 1 "argument  is not recognized\n" ""

/-- A world whose programs all behave like the test script. -/
def scriptWorld (environ : List (String × String)) : World :=
  { environ := environ, spawn := scriptSpawn }

/-- The provider of `TestExecutePresent` before its binary path is redirected. -/
def sampleProvider : DNSProvider :=
  { pluginName := "123"
    binaryPath := "/srv/execute_plugin_dir/123"
    env := Slice.mk ["WATER=bread", "LAVA=charcoal"] }

/-- A provider whose environment names the key `A` twice. -/
def duplicateKeyProvider : DNSProvider :=
  { pluginName := "123"
    binaryPath := "/srv/execute_plugin_dir/123"
    env := Slice.mk ["A=1", "B=2", "A=3"] }

/-! ## Auxiliary facts about the string functions -/

theorem splitChars_ne_nil (sep : Char) (s : List Char) : splitChars sep s ≠ [] := by
  cases s with
  | nil => simp [splitChars]
  | cons c cs =>
    unfold splitChars
    split
    · simp
    · split <;> simp

theorem splitChars_length (sep : Char) (s : List Char) :
    (splitChars sep s).length = s.count sep + 1 := by
  induction s with
  | nil => simp [splitChars]
  | cons c cs ih =>
    unfold splitChars
    by_cases h : c = sep
    · subst h
      simp [ih]
    · have hne : splitChars sep cs ≠ [] := splitChars_ne_nil sep cs
      rw [if_neg h]
      cases hs : splitChars sep cs with
      | nil => exact absurd hs hne
      | cons p ps =>
        rw [hs] at ih
        have hc : (c == sep) = false := by simpa using h
        simp only [List.length_cons] at ih ⊢
        rw [List.count_cons, hc]
        simpa using ih

theorem splitChars_intercalate (sep : Char) (s : List Char) :
    List.intercalate [sep] (splitChars sep s) = s := by
  induction s with
  | nil => simp [splitChars, List.intercalate]
  | cons c cs ih =>
    unfold splitChars
    by_cases h : c = sep
    · subst h
      rw [if_pos rfl]
      have hne : splitChars c cs ≠ [] := splitChars_ne_nil c cs
      cases hs : splitChars c cs with
      | nil => exact absurd hs hne
      | cons p ps =>
        rw [hs] at ih
        simp only [List.intercalate, List.intersperse, List.flatten] at ih ⊢
        simp [ih]
    · rw [if_neg h]
      have hne : splitChars sep cs ≠ [] := splitChars_ne_nil sep cs
      cases hs : splitChars sep cs with
      | nil => exact absurd hs hne
      | cons p ps =>
        rw [hs] at ih
        cases ps with
        | nil =>
          simp only [List.intercalate, List.intersperse, List.flatten] at ih ⊢
          simpa using ih
        | cons q qs =>
          simp only [List.intercalate, List.intersperse, List.flatten] at ih ⊢
          simpa using ih

theorem splitChars_no_sep (sep : Char) (s : List Char) :
    ∀ p ∈ splitChars sep s, sep ∉ p := by
  induction s with
  | nil => simp [splitChars]
  | cons c cs ih =>
    unfold splitChars
    by_cases h : c = sep
    · rw [if_pos h]
      intro p hp
      rcases List.mem_cons.mp hp with hp | hp
      · subst hp; simp
      · exact ih p hp
    · rw [if_neg h]
      have hne : splitChars sep cs ≠ [] := splitChars_ne_nil sep cs
      cases hs : splitChars sep cs with
      | nil => exact absurd hs hne
      | cons q qs =>
        rw [hs] at ih
        intro p hp
        rcases List.mem_cons.mp hp with hp | hp
        · subst hp
          intro hmem
          rcases List.mem_cons.mp hmem with hm | hm
          · exact h hm.symm
          · exact ih q (List.mem_cons_self _ _) hm
        · exact ih p (List.mem_cons_of_mem _ hp)

theorem foldl_push (f : String → String) (l : List String) (acc : Slice String)
    (h : l ≠ []) :
    l.foldl (fun envSlice v => envSlice.push (f v)) acc = Slice.mk (acc.elems ++ l.map f) := by
  induction l generalizing acc with
  | nil => exact absurd rfl h
  | cons x xs ih =>
    cases xs with
    | nil => simp [Slice.push]
    | cons y ys =>
      rw [List.foldl_cons, ih _ (by simp)]
      simp [Slice.push, Slice.elems]

theorem envStrToSlice_eq (str : String) :
    envStrToSlice str
      = Slice.mk ((splitChars ',' str.data).map (fun p => TrimSpace (String.mk p))) := by
  unfold envStrToSlice Split
  have hne : (Slice.mk ((splitChars ',' str.data).map String.mk)).elems ≠ [] := by
    simp [Slice.elems, splitChars_ne_nil]
  rw [foldl_push TrimSpace _ _ hne]
  simp [Slice.elems, List.map_map, Function.comp_def]

theorem intercalate_go_data (sep acc : String) (l : List String) :
    (String.intercalate.go acc sep l).data
      = acc.data ++ (l.map (fun x => sep.data ++ x.data)).flatten := by
  induction l generalizing acc with
  | nil => simp [String.intercalate.go]
  | cons x xs ih =>
    simp [String.intercalate.go, ih, String.data_append, List.append_assoc]

theorem intercalate_data (sep : String) (l : List String) :
    (String.intercalate sep l).data = List.intercalate sep.data (l.map String.data) := by
  cases l with
  | nil => simp [String.intercalate, List.intercalate]
  | cons a as =>
    simp only [String.intercalate, intercalate_go_data, List.map_cons, List.intercalate]
    induction as generalizing a with
    | nil => simp
    | cons b bs ih =>
      have := ih b
      simp only [List.map_cons, List.flatten_cons, List.intersperse] at this ⊢
      simp [this]

theorem dropWhile_decomp (p : Char → Bool) (l : List Char) :
    ∃ pre, l = pre ++ l.dropWhile p ∧ (∀ c ∈ pre, p c = true)
      ∧ ∀ c, (l.dropWhile p).head? = some c → p c = false := by
  refine ⟨l.takeWhile p, (List.takeWhile_append_dropWhile p l).symm, ?_, ?_⟩
  · intro c hc
    exact List.mem_takeWhile_imp hc
  · intro c hc
    induction l with
    | nil => simp at hc
    | cons x xs ih =>
      by_cases hx : p x = true
      · rw [List.dropWhile_cons_of_pos hx] at hc
        exact ih hc
      · rw [List.dropWhile_cons_of_neg hx] at hc
        simp at hc
        subst hc
        simpa using hx

theorem rdropWhile_decomp (p : Char → Bool) (l : List Char) :
    ∃ post, l = l.rdropWhile p ++ post ∧ (∀ c ∈ post, p c = true)
      ∧ ∀ c, (l.rdropWhile p).getLast? = some c → p c = false := by
  obtain ⟨pre, hpre, hall, hhead⟩ := dropWhile_decomp p l.reverse
  refine ⟨pre.reverse, ?_, ?_, ?_⟩
  · have h := congrArg List.reverse hpre
    simpa [List.rdropWhile] using h
  · intro c hc
    exact hall c (List.mem_reverse.mp hc)
  · intro c hc
    apply hhead c
    simpa [List.rdropWhile, List.getLast?_reverse] using hc

theorem TrimSpace_spec (s : String) :
    ∃ pre post, s.data = pre ++ (TrimSpace s).data ++ post
      ∧ (∀ c ∈ pre, IsSpace c = true) ∧ (∀ c ∈ post, IsSpace c = true)
      ∧ (∀ c, (TrimSpace s).data.head? = some c → IsSpace c = false)
      ∧ (∀ c, (TrimSpace s).data.getLast? = some c → IsSpace c = false) := by
  obtain ⟨pre, hpre, hpreAll, hhead⟩ := dropWhile_decomp IsSpace s.data
  obtain ⟨post, hpost, hpostAll, hlast⟩ :=
    rdropWhile_decomp IsSpace (s.data.dropWhile IsSpace)
  refine ⟨pre, post, ?_, hpreAll, hpostAll, ?_, ?_⟩
  · show s.data = pre ++ List.rdropWhile IsSpace (List.dropWhile IsSpace s.data) ++ post
    rw [List.append_assoc, ← hpost]
    exact hpre
  · intro c hc
    apply hhead c
    have hc2 : (List.rdropWhile IsSpace (List.dropWhile IsSpace s.data)).head? = some c := hc
    rw [hpost]
    cases hr : List.rdropWhile IsSpace (List.dropWhile IsSpace s.data) with
    | nil => rw [hr] at hc2; simp at hc2
    | cons x xs => rw [hr] at hc2; simpa using hc2
  · intro c hc
    exact hlast c hc

/-! ## Auxiliary facts about deduplication -/

theorem keepLastUnseen_cons (saw : List String) (kv : String) (later : List String) :
    keepLastUnseen saw (kv :: later)
      = if keptUnseen saw kv later then kv :: keepLastUnseen saw later
        else keepLastUnseen saw later := rfl

theorem keptUnseen_seen (saw : List String) (k kv : String) (later : List String)
    (h : k ∈ saw) :
    keptUnseen (k :: saw) kv later = keptUnseen saw kv later := by
  unfold keptUnseen
  cases hk : envKey kv with
  | none => rfl
  | some ky =>
    by_cases hky : ky = k
    · subst hky
      simp [h]
    · simp [hky]

theorem keepLastUnseen_seen (saw : List String) (k : String) (l : List String)
    (h : k ∈ saw) :
    keepLastUnseen (k :: saw) l = keepLastUnseen saw l := by
  induction l with
  | nil => rfl
  | cons kv later ih =>
    rw [keepLastUnseen_cons, keepLastUnseen_cons, keptUnseen_seen saw k kv later h, ih]

theorem keepLastUnseen_append_nokey (saw xs : List String) (x : String)
    (h : envKey x = none) :
    keepLastUnseen saw (xs ++ [x])
      = keepLastUnseen saw xs ++ (if x = "" then [] else [x]) := by
  induction xs with
  | nil =>
    by_cases hx : x = ""
    · subst hx
      simp [keepLastUnseen, keptUnseen, h]
    · simp [keepLastUnseen, keptUnseen, h, hx]
  | cons y ys ih =>
    have hkept : keptUnseen saw y (ys ++ [x]) = keptUnseen saw y ys := by
      unfold keptUnseen
      cases hy : envKey y with
      | none => rfl
      | some ky => simp [List.any_append, h]
    rw [List.cons_append, keepLastUnseen_cons, keepLastUnseen_cons, hkept, ih]
    split <;> simp

theorem keepLastUnseen_append_key (saw xs : List String) (x k : String)
    (h : envKey x = some k) :
    keepLastUnseen saw (xs ++ [x])
      = keepLastUnseen (k :: saw) xs ++ (if k ∈ saw then [] else [x]) := by
  induction xs with
  | nil =>
    by_cases hs : k ∈ saw
    · simp [keepLastUnseen, keptUnseen, h, hs]
    · simp [keepLastUnseen, keptUnseen, h, hs]
  | cons y ys ih =>
    have hkept : keptUnseen saw y (ys ++ [x]) = keptUnseen (k :: saw) y ys := by
      unfold keptUnseen
      cases hy : envKey y with
      | none => rfl
      | some ky =>
        by_cases hky : ky = k
        · subst hky
          simp [List.any_append, h]
        · have hb : (k == ky) = false := by
            simpa using fun e : k = ky => hky e.symm
          simp [List.any_append, h, hky, hb]
    rw [List.cons_append, keepLastUnseen_cons, keepLastUnseen_cons, hkept, ih]
    split <;> simp

theorem dedupLoop_reverse (l saw : List String) :
    (dedupLoop l.reverse saw).reverse = keepLastUnseen saw l := by
  induction l using List.reverseRecOn generalizing saw with
  | nil => rfl
  | append_singleton xs x ih =>
    rw [List.reverse_append, List.reverse_singleton, List.singleton_append]
    unfold dedupLoop
    cases hk : envKey x with
    | none =>
      rw [keepLastUnseen_append_nokey saw xs x hk]
      by_cases hx : x = ""
      · simp [hx, ih]
      · simp [hx, ih]
    | some k =>
      rw [keepLastUnseen_append_key saw xs x k hk]
      by_cases hs : k ∈ saw
      · simp [hs, ih, keepLastUnseen_seen saw k xs hs]
      · simp [hs, ih]

theorem dedupEnv_eq_keepLast (env : List String) : dedupEnv env = keepLast env :=
  dedupLoop_reverse env []

theorem keepLastUnseen_sublist (saw l : List String) :
    (keepLastUnseen saw l).Sublist l := by
  induction l with
  | nil => exact List.Sublist.slnil
  | cons kv later ih =>
    unfold keepLastUnseen
    split
    · exact List.Sublist.cons₂ kv ih
    · exact List.Sublist.cons kv ih

theorem keepLast_distinctKeys (env : List String) (h : distinctKeys env) :
    keepLast env = env := by
  unfold keepLast
  obtain ⟨hne, hpair⟩ := h
  induction env with
  | nil => rfl
  | cons kv later ih =>
    have hp := List.pairwise_cons.mp hpair
    have hkept : keptUnseen [] kv later = true := by
      unfold keptUnseen
      cases hk : envKey kv with
      | none =>
        have : kv ≠ "" := hne kv (List.mem_cons_self _ _)
        simpa using this
      | some k =>
        simp only [List.contains_nil, Bool.not_false, Bool.true_and, Bool.not_eq_true',
          List.any_eq_false, beq_iff_eq]
        intro x hx hxk
        rcases hp.1 x hx with h1 | h1
        · rw [hk] at h1
          cases h1
        · exact h1 (by rw [hk, hxk])
    unfold keepLastUnseen
    rw [if_pos hkept, ih (fun x hx => hne x (List.mem_cons_of_mem _ hx)) hp.2]

/-! ## The provider operations -/

theorem cmd_argv_cons (path : String) (rest : List String) (env : Slice String) :
    Cmd.argv { Path := path, Args := Slice.mk (path :: rest), Env := env } = path :: rest := by
  simp [Cmd.argv, Slice.len, Slice.elems]

theorem cmd_process (w : World) (path : String) (rest : List String) (env : Slice String) :
    Cmd.process { Path := path, Args := Slice.mk (path :: rest), Env := env } w
      = { path := path, argv := path :: rest, env := effectiveEnv env w.Environ } := by
  simp only [Cmd.process, cmd_argv_cons, Cmd.envv, effectiveEnv]

theorem execute_runs (w : World) (binaryPath : String) (args env : Slice String) :
    (execute w binaryPath args env).2.runs
      = [{ path := binaryPath, argv := binaryPath :: args.elems
           env := effectiveEnv env w.Environ }] := by
  simp only [execute, Cmd.Run, List.singleton_append, cmd_process]

theorem execute_status_eq (w : World) (binaryPath : String) (args env : Slice String) :
    (execute w binaryPath args env).1
      = ((w.spawn binaryPath (binaryPath :: args.elems) (effectiveEnv env w.Environ)).status,
         (w.spawn binaryPath (binaryPath :: args.elems) (effectiveEnv env w.Environ)).stdout,
         (w.spawn binaryPath (binaryPath :: args.elems) (effectiveEnv env w.Environ)).stderr) := by
  simp only [execute, Cmd.Run, List.singleton_append, cmd_process, World.start]

theorem status_none_iff (o : ProcOutcome) : o.status = none ↔ o.succeeded = true := by
  cases o with
  | startFailed msg => simp [ProcOutcome.status, ProcOutcome.succeeded]
  | exited code out err =>
    cases code with
    | zero => simp [ProcOutcome.status, ProcOutcome.succeeded]
    | succ n => simp [ProcOutcome.status, ProcOutcome.succeeded]
  | signaled signal out err => simp [ProcOutcome.status, ProcOutcome.succeeded]

theorem effectiveEnv_mk (l parent : List String) :
    effectiveEnv (Slice.mk l) parent = keepLast l := by
  simp only [effectiveEnv, dedupEnv_eq_keepLast]

theorem credentials_env_not_nil (pluginName : String) (env : Slice String) (c : DNSProvider)
    (h : NewDNSProviderCredentials pluginName env = (some c, none)) :
    ∃ x xs, c.env = Slice.mk (x :: xs) := by
  unfold NewDNSProviderCredentials at h
  split at h
  · simp at h
  · rename_i hcond
    simp only [Prod.mk.injEq, Option.some.injEq, and_true] at h
    subst h
    cases env with
    | nil => simp [Slice.len, Slice.elems] at hcond
    | mk l =>
      cases l with
      | nil => simp [Slice.len, Slice.elems] at hcond
      | cons x xs => exact ⟨x, xs, rfl⟩

/-! ## Claims -/

/-- C1: for every provider and every domain, token and keyAuth, Present makes
exactly one request to start a program: its path is the provider's binaryPath,
its argv is binaryPath followed by "present", fqdn and value, with (fqdn,
value) as given by the record naming function for (domain, keyAuth), and its
environment is the one os/exec derives from the provider's env. The error of
Present is the one of that very start, in every world. Present is the runner
applied to binaryPath, ["present", fqdn, value] and the provider's env, and
the token changes nothing. -/
theorem Present_runs_plugin_once (dns : RecordNaming) (w : World) (c : DNSProvider)
    (domain token keyAuth : String) :
    (c.Present dns w domain token keyAuth).2.runs
        = [{ path := c.binaryPath
             argv := [c.binaryPath, "present", (dns domain keyAuth).1,
               (dns domain keyAuth).2.1]
             env := effectiveEnv c.env w.Environ }]
      ∧ (c.Present dns w domain token keyAuth).1
        = (w.spawn c.binaryPath
            [c.binaryPath, "present", (dns domain keyAuth).1, (dns domain keyAuth).2.1]
            (effectiveEnv c.env w.Environ)).status
      ∧ c.Present dns w domain token keyAuth
        = ((execute w c.binaryPath
              (Slice.mk ["present", (dns domain keyAuth).1, (dns domain keyAuth).2.1])
              c.env).1.1,
           (execute w c.binaryPath
              (Slice.mk ["present", (dns domain keyAuth).1, (dns domain keyAuth).2.1])
              c.env).2)
      ∧ ∀ other : String,
          c.Present dns w domain other keyAuth = c.Present dns w domain token keyAuth := by
  refine ⟨?_, ?_, rfl, fun _ => rfl⟩
  · simp only [DNSProvider.Present, execute_runs, Slice.elems]
  · simp only [DNSProvider.Present, execute_status_eq, Slice.elems]

/-- C2: for every provider and every domain, token and keyAuth, CleanUp makes
exactly one request to start a program: its path is the provider's binaryPath,
its argv is binaryPath followed by "cleanup", fqdn and the empty string, with
fqdn the first component given by the record naming function for (domain,
keyAuth), and its environment is the one os/exec derives from the provider's
env. The error of CleanUp is the one of that very start, in every world.
CleanUp is the runner applied to binaryPath, ["cleanup", fqdn, ""] and the
provider's env; the third argument is empty whatever the computed value, and
the token changes nothing. -/
theorem CleanUp_runs_plugin_once (dns : RecordNaming) (w : World) (c : DNSProvider)
    (domain token keyAuth : String) :
    (c.CleanUp dns w domain token keyAuth).2.runs
        = [{ path := c.binaryPath
             argv := [c.binaryPath, "cleanup", (dns domain keyAuth).1, ""]
             env := effectiveEnv c.env w.Environ }]
      ∧ (c.CleanUp dns w domain token keyAuth).1
        = (w.spawn c.binaryPath [c.binaryPath, "cleanup", (dns domain keyAuth).1, ""]
            (effectiveEnv c.env w.Environ)).status
      ∧ c.CleanUp dns w domain token keyAuth
        = ((execute w c.binaryPath
              (Slice.mk ["cleanup", (dns domain keyAuth).1, ""]) c.env).1.1,
           (execute w c.binaryPath
              (Slice.mk ["cleanup", (dns domain keyAuth).1, ""]) c.env).2)
      ∧ ∀ other : String,
          c.CleanUp dns w domain other keyAuth = c.CleanUp dns w domain token keyAuth := by
  refine ⟨?_, ?_, rfl, fun _ => rfl⟩
  · simp only [DNSProvider.CleanUp, execute_runs, Slice.elems]
  · simp only [DNSProvider.CleanUp, execute_status_eq, Slice.elems]

/-- C3: NewDNSProviderCredentials fails exactly when pluginName is empty or env
has no elements; a failure returns no provider and an error whose message is
"execute parameters missing"; a success returns the provider holding
pluginName and env unchanged and binaryPath equal to
"/srv/execute_plugin_dir/" followed by pluginName. -/
theorem NewDNSProviderCredentials_spec (pluginName : String) (env : Slice String) :
    ((NewDNSProviderCredentials pluginName env).2 ≠ none
        ↔ (pluginName = "" ∨ env.elems = []))
      ∧ ((NewDNSProviderCredentials pluginName env).2 ≠ none →
          (NewDNSProviderCredentials pluginName env).1 = none
            ∧ (NewDNSProviderCredentials pluginName env).2.map GoError.Error
              = some "execute parameters missing")
      ∧ ((NewDNSProviderCredentials pluginName env).2 = none →
          (NewDNSProviderCredentials pluginName env).1
            = some { pluginName := pluginName
                     binaryPath := "/srv/execute_plugin_dir/" ++ pluginName
                     env := env }) := by
  unfold NewDNSProviderCredentials
  by_cases h : pluginName = "" ∨ env.len = 0
  · rw [if_pos h]
    refine ⟨?_, ?_, ?_⟩
    · simpa [Slice.len] using h
    · intro _
      exact ⟨rfl, rfl⟩
    · intro hnone
      simp at hnone
  · rw [if_neg h]
    refine ⟨?_, ?_, ?_⟩
    · simpa [Slice.len] using h
    · intro hne
      simp at hne
    · intro _
      rfl

/-- C3 at the arguments of TestNewDNSProviderValid: the call succeeds with the
provider stored as given. -/
theorem NewDNSProviderCredentials_spec_witness :
    (NewDNSProviderCredentials "123" (Slice.mk ["WATER=bread", "LAVA=charcoal"])).1
      = some sampleProvider :=
  (NewDNSProviderCredentials_spec "123" (Slice.mk ["WATER=bread", "LAVA=charcoal"])).2.2
    (by decide)

/-- C4 fails on the code: with EXECUTE_PLUGIN_NAME set and EXECUTE_ENV empty,
NewDNSProvider returns a provider whose env is the one-element list [""] and a
nil error, since splitting the empty string gives one empty piece. -/
theorem NewDNSProvider_accepts_empty_EXECUTE_ENV :
    (scriptWorld [("EXECUTE_PLUGIN_NAME", "regru-issuer"), ("EXECUTE_ENV", "")]).Getenv
        "EXECUTE_ENV" = ""
      ∧ NewDNSProvider
          (scriptWorld [("EXECUTE_PLUGIN_NAME", "regru-issuer"), ("EXECUTE_ENV", "")])
        = (some { pluginName := "regru-issuer"
                  binaryPath := "/srv/execute_plugin_dir/regru-issuer"
                  env := Slice.mk [""] }, none) := by
  decide

/-- C5: with p the value of EXECUTE_PLUGIN_NAME and s the value of EXECUTE_ENV,
NewDNSProvider returns what NewDNSProviderCredentials returns for p and
envStrToSlice s; envStrToSlice s is the list of TrimSpace of the pieces of s,
where the pieces joined by commas give back s and contain no comma, and
TrimSpace removes exactly the leading and trailing white space; the list has
one more element than s has commas; "TEST=indeed,VICTORY=ahead" gives
["TEST=indeed", "VICTORY=ahead"]; and for non-empty p the call succeeds with
binaryPath the plugin root followed by p and env the list. -/
theorem NewDNSProvider_delegates (w : World) (p s : String)
    (hp : w.Getenv "EXECUTE_PLUGIN_NAME" = p) (hs : w.Getenv "EXECUTE_ENV" = s) :
    NewDNSProvider w = NewDNSProviderCredentials p (envStrToSlice s)
      ∧ (∃ pieces : List String, String.intercalate "," pieces = s
          ∧ (∀ x ∈ pieces, ',' ∉ x.data)
          ∧ envStrToSlice s = Slice.mk (pieces.map TrimSpace))
      ∧ (∀ x : String, ∃ pre post, x.data = pre ++ (TrimSpace x).data ++ post
          ∧ (∀ ch ∈ pre, IsSpace ch = true) ∧ (∀ ch ∈ post, IsSpace ch = true)
          ∧ (∀ ch, (TrimSpace x).data.head? = some ch → IsSpace ch = false)
          ∧ (∀ ch, (TrimSpace x).data.getLast? = some ch → IsSpace ch = false))
      ∧ (envStrToSlice s).len = s.data.count ',' + 1
      ∧ envStrToSlice "TEST=indeed,VICTORY=ahead"
        = Slice.mk ["TEST=indeed", "VICTORY=ahead"]
      ∧ (p ≠ "" →
          NewDNSProvider w
            = (some { pluginName := p
                      binaryPath := "/srv/execute_plugin_dir/" ++ p
                      env := envStrToSlice s }, none)) := by
  have hdel : NewDNSProvider w = NewDNSProviderCredentials p (envStrToSlice s) := by
    simp [NewDNSProvider, hp, hs]
  refine ⟨hdel, ?_, TrimSpace_spec, ?_, by decide, ?_⟩
  · refine ⟨(splitChars ',' s.data).map String.mk, ?_, ?_, ?_⟩
    · apply String.ext
      rw [intercalate_data]
      simp only [List.map_map]
      have hid : (String.data ∘ String.mk) = (id : List Char → List Char) := by
        funext l
        rfl
      rw [hid, List.map_id]
      exact splitChars_intercalate ',' s.data
    · intro x hx
      obtain ⟨l, hl, rfl⟩ := List.mem_map.mp hx
      exact splitChars_no_sep ',' s.data l hl
    · rw [envStrToSlice_eq]
      simp [List.map_map, Function.comp_def]
  · rw [envStrToSlice_eq]
    simp [Slice.len, Slice.elems, splitChars_length]
  · intro hne
    rw [hdel]
    have hlen : (envStrToSlice s).len ≠ 0 := by
      rw [envStrToSlice_eq]
      simp [Slice.len, Slice.elems, splitChars_length]
    unfold NewDNSProviderCredentials
    rw [if_neg (by simp [hne, hlen])]
    rfl

/-- C5 at the environment of TestNewDNSProviderValidEnv: the provider is
created for regru-issuer with the two entries of EXECUTE_ENV. -/
theorem NewDNSProvider_delegates_witness :
    NewDNSProvider
        (scriptWorld [("EXECUTE_PLUGIN_NAME", "regru-issuer"),
          ("EXECUTE_ENV", "REGRU_USER=test@example.com,REGRU_PASS=123")])
      = (some { pluginName := "regru-issuer"
                binaryPath := "/srv/execute_plugin_dir/regru-issuer"
                env := Slice.mk ["REGRU_USER=test@example.com", "REGRU_PASS=123"] }, none) :=
  (NewDNSProvider_delegates
    (scriptWorld [("EXECUTE_PLUGIN_NAME", "regru-issuer"),
      ("EXECUTE_ENV", "REGRU_USER=test@example.com,REGRU_PASS=123")])
    "regru-issuer" "REGRU_USER=test@example.com,REGRU_PASS=123"
    (by decide) (by decide)).2.2.2.2.2 (by decide)

/-- C6: Present and CleanUp each return exactly the error of the runner; that
error is nil exactly when the plugin was started and exited with status zero,
and non-nil exactly when it was not. -/
theorem Present_CleanUp_error (dns : RecordNaming) (w : World) (c : DNSProvider)
    (domain token keyAuth : String) :
    ((c.Present dns w domain token keyAuth).1
        = (execute w c.binaryPath
            (Slice.mk ["present", (dns domain keyAuth).1, (dns domain keyAuth).2.1]) c.env).1.1
      ∧ ((c.Present dns w domain token keyAuth).1 = none
          ↔ (w.spawn c.binaryPath
              [c.binaryPath, "present", (dns domain keyAuth).1, (dns domain keyAuth).2.1]
              (effectiveEnv c.env w.Environ)).succeeded = true)
      ∧ ((c.Present dns w domain token keyAuth).1 ≠ none
          ↔ (w.spawn c.binaryPath
              [c.binaryPath, "present", (dns domain keyAuth).1, (dns domain keyAuth).2.1]
              (effectiveEnv c.env w.Environ)).succeeded = false))
      ∧ ((c.CleanUp dns w domain token keyAuth).1
        = (execute w c.binaryPath
            (Slice.mk ["cleanup", (dns domain keyAuth).1, ""]) c.env).1.1
      ∧ ((c.CleanUp dns w domain token keyAuth).1 = none
          ↔ (w.spawn c.binaryPath [c.binaryPath, "cleanup", (dns domain keyAuth).1, ""]
              (effectiveEnv c.env w.Environ)).succeeded = true)
      ∧ ((c.CleanUp dns w domain token keyAuth).1 ≠ none
          ↔ (w.spawn c.binaryPath [c.binaryPath, "cleanup", (dns domain keyAuth).1, ""]
              (effectiveEnv c.env w.Environ)).succeeded = false)) := by
  have key : ∀ rest : List String,
      ((execute w c.binaryPath (Slice.mk rest) c.env).1.1 = none
        ↔ (w.spawn c.binaryPath (c.binaryPath :: rest)
            (effectiveEnv c.env w.Environ)).succeeded = true) := by
    intro rest
    rw [execute_status_eq]
    exact status_none_iff _
  refine ⟨⟨rfl, ?_, ?_⟩, ⟨rfl, ?_, ?_⟩⟩
  · exact key _
  · rw [← Bool.not_eq_true]
    exact not_congr (key _)
  · exact key _
  · rw [← Bool.not_eq_true]
    exact not_congr (key _)

theorem reachable_env_not_nil (c : DNSProvider)
    (hc : (∃ name env, NewDNSProviderCredentials name env = (some c, none))
      ∨ (∃ w0, NewDNSProvider w0 = (some c, none))) :
    ∃ x xs, c.env = Slice.mk (x :: xs) := by
  rcases hc with ⟨name, env, h⟩ | ⟨w0, h⟩
  · exact credentials_env_not_nil name env c h
  · exact credentials_env_not_nil _ _ c h

/-- C7 as stated fails: the provider that NewDNSProviderCredentials returns for
the env ["A=1", "B=2", "A=3"] has its plugin started by Present with the
environment ["B=2", "A=3"], which is what the plugin reports on its standard
error, and not with the configured list. -/
theorem plugin_env_not_exactly_provider_env :
    NewDNSProviderCredentials "123" (Slice.mk ["A=1", "B=2", "A=3"])
        = (some duplicateKeyProvider, none)
      ∧ (duplicateKeyProvider.Present sampleNaming (scriptWorld [])
          "132fds.example.com" "" "123dda=").2.runs.map Process.env
        = [["B=2", "A=3"]]
      ∧ (duplicateKeyProvider.Present sampleNaming (scriptWorld [])
          "132fds.example.com" "" "123dda=").2.log.getLast?
        = some ("process finished with exit code: 0, stdout: "
            ++ "present _acme-challenge.132fds.example.com. 123dda=\n, stderr: B=2\nA=3\n")
      ∧ ¬ ((duplicateKeyProvider.Present sampleNaming (scriptWorld [])
          "132fds.example.com" "" "123dda=").2.runs.map Process.env
        = [duplicateKeyProvider.env.elems]) := by
  decide

/-- C7, amended: for every provider returned by NewDNSProviderCredentials or by
NewDNSProvider, the env of the provider is not nil; the one request Present
and CleanUp each make carries as environment the provider's list with, for
every key, only the last entry of that key and without empty entries, and the
error returned is the one of the start with that environment, whatever the
environment of the calling process; every entry handed over is an entry of
the provider's list, in the same order, and the environment is exactly the
provider's list when no entry is empty and no two entries share a key; two
worlds that differ only in the environment of the calling process give the
same result and the same effects. -/
theorem plugin_env_is_deduplicated_provider_env (dns : RecordNaming) (c : DNSProvider)
    (hc : (∃ name env, NewDNSProviderCredentials name env = (some c, none))
      ∨ (∃ w0, NewDNSProvider w0 = (some c, none)))
    (w other : World) (hspawn : other.spawn = w.spawn) (domain token keyAuth : String) :
    c.env.isNil = false
      ∧ (c.Present dns w domain token keyAuth).2.runs.map Process.env
        = [keepLast c.env.elems]
      ∧ (c.CleanUp dns w domain token keyAuth).2.runs.map Process.env
        = [keepLast c.env.elems]
      ∧ (c.Present dns w domain token keyAuth).1
        = (w.spawn c.binaryPath
            [c.binaryPath, "present", (dns domain keyAuth).1, (dns domain keyAuth).2.1]
            (keepLast c.env.elems)).status
      ∧ (c.CleanUp dns w domain token keyAuth).1
        = (w.spawn c.binaryPath [c.binaryPath, "cleanup", (dns domain keyAuth).1, ""]
            (keepLast c.env.elems)).status
      ∧ (keepLast c.env.elems).Sublist c.env.elems
      ∧ (distinctKeys c.env.elems → keepLast c.env.elems = c.env.elems)
      ∧ c.Present dns other domain token keyAuth = c.Present dns w domain token keyAuth
      ∧ c.CleanUp dns other domain token keyAuth
        = c.CleanUp dns w domain token keyAuth := by
  obtain ⟨x, xs, henv⟩ := reachable_env_not_nil c hc
  have hw : effectiveEnv c.env w.Environ = keepLast c.env.elems := by
    rw [henv, effectiveEnv_mk, Slice.elems]
  have ho : effectiveEnv c.env other.Environ = keepLast c.env.elems := by
    rw [henv, effectiveEnv_mk, Slice.elems]
  have hex : ∀ rest : Slice String,
      execute other c.binaryPath rest c.env = execute w c.binaryPath rest c.env := by
    intro rest
    simp only [execute, Cmd.Run, Cmd.process, World.start, Cmd.envv, henv, hspawn]
  refine ⟨?_, ?_, ?_, ?_, ?_, ?_, ?_, ?_, ?_⟩
  · simp [henv, Slice.isNil]
  · simp only [DNSProvider.Present, execute_runs, hw, List.map_cons, List.map_nil]
  · simp only [DNSProvider.CleanUp, execute_runs, hw, List.map_cons, List.map_nil]
  · simp only [DNSProvider.Present, execute_status_eq, hw, Slice.elems]
  · simp only [DNSProvider.CleanUp, execute_status_eq, hw, Slice.elems]
  · exact keepLastUnseen_sublist [] c.env.elems
  · exact keepLast_distinctKeys c.env.elems
  · simp only [DNSProvider.Present, hex]
  · simp only [DNSProvider.CleanUp, hex]

/-- C7, amended, at the provider of TestExecutePresent, in two worlds whose
calling processes have different environments: the plugin is started with
exactly the two configured entries, and both worlds give the same result. -/
theorem plugin_env_is_deduplicated_provider_env_witness :
    (sampleProvider.Present sampleNaming (scriptWorld [("HOME", "/root")])
        "132fds.example.com" "" "123dda=").2.runs.map Process.env
        = [["WATER=bread", "LAVA=charcoal"]]
      ∧ sampleProvider.Present sampleNaming (scriptWorld [("SECRET", "hunter2")])
          "132fds.example.com" "" "123dda="
        = sampleProvider.Present sampleNaming (scriptWorld [("HOME", "/root")])
          "132fds.example.com" "" "123dda=" :=
  have h := plugin_env_is_deduplicated_provider_env sampleNaming sampleProvider
    (Or.inl ⟨"123", Slice.mk ["WATER=bread", "LAVA=charcoal"], by decide⟩)
    (scriptWorld [("HOME", "/root")]) (scriptWorld [("SECRET", "hunter2")]) rfl
    "132fds.example.com" "" "123dda="
  ⟨h.2.1, h.2.2.2.2.2.2.2.1⟩

/-- C8: execute returns a nil error exactly when the program was started and
exited with status zero, and a non-nil error otherwise; in both cases its
second and third results are the standard output and standard error the
program produced. -/
theorem execute_results (w : World) (binaryPath : String) (args env : Slice String) :
    ((execute w binaryPath args env).1.1 = none
        ↔ (w.spawn binaryPath (binaryPath :: args.elems)
            (effectiveEnv env w.Environ)).succeeded = true)
      ∧ ((execute w binaryPath args env).1.1 ≠ none
        ↔ (w.spawn binaryPath (binaryPath :: args.elems)
            (effectiveEnv env w.Environ)).succeeded = false)
      ∧ (execute w binaryPath args env).1.2.1
        = (w.spawn binaryPath (binaryPath :: args.elems)
            (effectiveEnv env w.Environ)).stdout
      ∧ (execute w binaryPath args env).1.2.2
        = (w.spawn binaryPath (binaryPath :: args.elems)
            (effectiveEnv env w.Environ)).stderr := by
  rw [execute_status_eq]
  refine ⟨status_none_iff _, ?_, rfl, rfl⟩
  rw [← Bool.not_eq_true]
  exact not_congr (status_none_iff _)

/-- C9: for every provider, Timeout returns 120 seconds and 2 seconds, that is
120000000000 and 2000000000 nanoseconds, and leaves the provider as it was. -/
theorem Timeout_fixed (c : DNSProvider) :
    c.Timeout = (c, 120000000000, 2000000000)
      ∧ c.Timeout.2 = (120 * Second, 2 * Second) := by
  refine ⟨?_, rfl⟩
  simp [DNSProvider.Timeout, Second, Millisecond, Microsecond, Nanosecond]

/-- C10 fails on the code: when the plugin exits with status 1, execute returns
the exit error for status 1 and yet the line logged after completion reports
exit code 0, since the variable exitCode is never assigned. -/
theorem execute_logs_exit_code_zero :
    (execute (scriptWorld []) "/srv/execute_plugin_dir/123" (Slice.mk ["bogus"])
        (Slice.mk ["TEST=indeed"])).1.1 = some (GoError.exitError 1)
      ∧ (execute (scriptWorld []) "/srv/execute_plugin_dir/123" (Slice.mk ["bogus"])
        (Slice.mk ["TEST=indeed"])).2.log
        = ["executing program /srv/execute_plugin_dir/123 with the following arguments: "
            ++ "[/srv/execute_plugin_dir/123 bogus]. Environment: [TEST=indeed]",
           "process finished with exit code: 0, stdout: "
            ++ "argument bogus is not recognized\n, stderr: "] := by
  decide

end Execute
